import Mathlib

/-!
Shallow embedding of the authentication + ownership-scoped CRUD +
pagination/search core of the MERN task/blog manager, translated from:
  - server/src/middleware (auth, optionalAuth)
  - server/src/models/User.js (generateAuthToken, toJSON, schema select)
  - server/src/models/Post.js (Post.search, Post.paginate)
  - server/src/controllers/postController.js (getPosts, updatePost, deletePost)
  - MERN_STACK_GUIDE.md task controllers (updateTask, deleteTask)
Machine integers are modelled as Nat (ids, timestamps, counters); MongoDB
documents as Lean structures; collections as lists; fallible operations
return explicit outcome values.
-/

namespace App

/-! ### JavaScript string helpers

`String.prototype.replace(pat, '')` with a string pattern deletes only the
first occurrence of `pat`.  We model it on character lists. -/

/-- Does `s` begin with the pattern `pat`? (List-of-char prefix test.) -/
def listLeads : List Char → List Char → Bool
  | [], _ => true
  | _ :: _, [] => false
  | p :: ps, c :: cs => p == c && listLeads ps cs

/-- Delete the first occurrence of `pat` from `s`; if `pat` does not occur,
`s` is returned unchanged.  This is JS `s.replace(pat, '')`. -/
def deleteFirstOcc (pat : List Char) : List Char → List Char
  | [] => []
  | c :: cs =>
    if listLeads pat (c :: cs) then (c :: cs).drop pat.length
    else c :: deleteFirstOcc pat cs

/-- Does `pat` occur as a contiguous substring of `s`? -/
def hasOcc (pat : List Char) : List Char → Bool
  | [] => listLeads pat []
  | c :: cs => listLeads pat (c :: cs) || hasOcc pat cs

/-- JS `s.replace(pat, '')` on `String`. -/
def replaceFirst (s pat : String) : String :=
  ⟨deleteFirstOcc pat.data s.data⟩

/-! ### JWT model

The `jsonwebtoken` library is modelled symbolically: a signed token is a
record carrying its payload, issue time, expiry time and the secret it was
signed with; `jwtVerify` checks the signature (secret equality) and then the
expiry (`jsonwebtoken` rejects once the clock reaches `exp`), exactly the
two failure kinds (`JsonWebTokenError` / `TokenExpiredError`) the middleware
distinguishes.  Times are in seconds. -/

structure JwtPayload where
  id : Nat
  email : String
  name : String
  role : String
deriving DecidableEq

inductive TokenErrKind
  /-- `JsonWebTokenError`: bad signature / structure. -/
  | malformed
  /-- `TokenExpiredError`: past expiry. -/
  | expired
deriving DecidableEq

structure SignedToken where
  payload : JwtPayload
  iat : Nat
  exp : Nat
  sig : String
deriving DecidableEq

/-- `jwt.sign(payload, secret, { expiresIn })` at clock time `now`. -/
def jwtSign (payload : JwtPayload) (secret : String) (expiresIn now : Nat) :
    SignedToken :=
  { payload := payload, iat := now, exp := now + expiresIn, sig := secret }

/-- `jwt.verify(token, secret)` at clock time `now`. -/
def jwtVerify (t : SignedToken) (secret : String) (now : Nat) :
    Except TokenErrKind JwtPayload :=
  if t.sig ≠ secret then .error .malformed
  else if t.exp ≤ now then .error .expired
  else .ok t.payload

/-! ### User model (models/User.js) -/

structure User where
  id : Nat
  name : String
  email : String
  /-- The stored (hashed) password. -/
  password : String
  role : String
  avatar : Option String
deriving DecidableEq

/-- `process.env.JWT_EXPIRE || '7d'`, in seconds. -/
def JWT_EXPIRE_DEFAULT : Nat := 7 * 24 * 60 * 60

/-- `userSchema.methods.generateAuthToken`: signs `{id, email, name, role}`. -/
def User.generateAuthToken (u : User) (secret : String) (expiresIn now : Nat) :
    SignedToken :=
  jwtSign { id := u.id, email := u.email, name := u.name, role := u.role }
    secret expiresIn now

/-- `this.toObject()`: the raw document as key/value pairs (values rendered
as strings; only the key set matters for the serialization claims). -/
def User.toObject (u : User) : List (String × String) :=
  [("_id", toString u.id), ("name", u.name), ("email", u.email),
   ("password", u.password), ("role", u.role),
   ("avatar", u.avatar.getD "null"), ("__v", "0")]

/-- JS `delete obj[k]` on a key/value document. -/
def deleteKey (k : String) (doc : List (String × String)) :
    List (String × String) :=
  doc.filter (fun kv => kv.1 != k)

/-- `userSchema.methods.toJSON`: `toObject` then delete `password`, `__v`. -/
def User.toJSON (u : User) : List (String × String) :=
  deleteKey "__v" (deleteKey "password" (User.toObject u))

/-- Schema fields marked `select: false` (the password field). -/
def userSelectFalse : List String := ["password"]

/-- Default projection applied by reads that do not override `select`. -/
def projectDefault (doc : List (String × String)) : List (String × String) :=
  doc.filter (fun kv => !(userSelectFalse.contains kv.1))

/-- `User.findById(i)` with the schema's default projection. -/
def User.findByIdDefault (db : List User) (i : Nat) :
    Option (List (String × String)) :=
  (db.find? (fun u => u.id == i)).map (fun u => projectDefault (User.toObject u))

/-! ### Auth middleware (middleware/auth.js) -/

/-- Outcome of running a middleware: either it responded with an HTTP error
(`reject`) or it called `next()` (`proceed`), possibly having attached
`req.user` and `req.userId`. -/
inductive MWResult
  | reject (status : Nat) (message : String)
  | proceed (attached : Option (User × Nat))
deriving DecidableEq

/-- Ambient services the middleware calls: `jwt.verify(·, JWT_SECRET)` as a
function from the raw token string, and `User.findById(·).select('-password')`
as a lookup by id. -/
structure AuthEnv where
  verifyTok : String → Except TokenErrKind JwtPayload
  findUser : Nat → Option User

/-- `authHeader.replace('Bearer ', '')`. -/
def bearerToken (h : String) : String := replaceFirst h "Bearer "

/-- The mandatory `auth` middleware.  `authHeader` is
`req.header('Authorization')` (`none` = absent); an empty header string is
falsy in JS and rejected by the same `!authHeader` guard. -/
def auth (env : AuthEnv) (authHeader : Option String) : MWResult :=
  match authHeader with
  | none => .reject 401 "No authorization header, access denied"
  | some h =>
    if h = "" then .reject 401 "No authorization header, access denied"
    else
      let token := bearerToken h
      if token = "" then .reject 401 "No token provided, authorization denied"
      else
        match env.verifyTok token with
        | .error .malformed => .reject 401 "Invalid token"
        | .error .expired => .reject 401 "Token expired, please login again"
        | .ok decoded =>
          match env.findUser decoded.id with
          | none => .reject 401 "User not found, token invalid"
          | some user => .proceed (some (user, user.id))

/-- The `optionalAuth` middleware: any failure (absent header, verify throw,
unknown user) is swallowed and the request proceeds unauthenticated. -/
def optionalAuth (env : AuthEnv) (authHeader : Option String) : MWResult :=
  match authHeader with
  | none => .proceed none
  | some h =>
    if h = "" then .proceed none
    else
      match env.verifyTok (bearerToken h) with
      | .error _ => .proceed none
      | .ok decoded =>
        match env.findUser decoded.id with
        | none => .proceed none
        | some user => .proceed (some (user, user.id))

/-! ### Post model (models/Post.js) -/

structure Post where
  id : Nat
  title : String
  body : String
  /-- Owning user id (`author` reference). -/
  author : Nat
  category : String
  tags : List String
  views : Nat
  published : Bool
  image : Option String
  /-- Creation timestamp (`timestamps: true`), drives newest-first order. -/
  createdAt : Nat
deriving DecidableEq

/-- `Model.countDocuments(filter)`. -/
def countDocuments (db : List Post) (p : Post → Bool) : Nat :=
  (db.filter p).length

/-- Insert `p` into a descending-by-`key` list: `p` goes before the first
element whose key is ≤ its own, so equal keys keep their original relative
order (MongoDB's sort is stable). -/
def insertDescBy {α : Type} (key : α → Nat) (p : α) : List α → List α
  | [] => [p]
  | q :: qs =>
    if key q ≤ key p then p :: q :: qs else q :: insertDescBy key p qs

/-- Stable descending sort by a numeric key (models a MongoDB
`.sort({ field: -1 })`). -/
def sortDescBy {α : Type} (key : α → Nat) : List α → List α
  | [] => []
  | p :: ps => insertDescBy key p (sortDescBy key ps)

/-- `.sort({ createdAt: -1 })`: newest first. -/
def sortByCreatedDesc (l : List Post) : List Post :=
  sortDescBy (·.createdAt) l

/-- `Math.ceil(total / limit)` on nonnegative integers: the ceiling of the
exact division, expressed in natural-number arithmetic.  The lemma
`ceilDivNat_eq_ceil` below proves this equals `⌈(total : ℚ) / limit⌉`
whenever `limit > 0`, so the embedding is faithful to the JS float
division + `Math.ceil`. -/
def ceilDivNat (total limit : Nat) : Nat := (total + limit - 1) / limit

structure PaginationInfo where
  page : Nat
  limit : Nat
  total : Nat
  /-- `pages: Math.ceil(total / limit)`. -/
  pages : Nat
  hasMore : Bool
deriving DecidableEq

structure PaginateResult where
  posts : List Post
  pagination : PaginationInfo
deriving DecidableEq

/-- `Post.paginate({ page, limit })`: filter `published: true`, sort newest
first, window by `skip = (page-1)*limit` and `limit`, and count all published
documents for the descriptor. -/
def Post.paginate (db : List Post) (page limit : Nat) : PaginateResult :=
  let skip := (page - 1) * limit
  let posts := ((sortByCreatedDesc (db.filter (·.published))).drop skip).take limit
  let total := countDocuments db (·.published)
  { posts := posts,
    pagination :=
      { page := page, limit := limit, total := total,
        pages := ceilDivNat total limit,
        hasMore := decide (skip + posts.length < total) } }

/-- `Post.search(query, { page, limit })`: filter by the `$text` operator
(modelled by the abstract match predicate `tmatch`) conjoined with
`published: true`, sort by descending relevance (`score`), then apply the
same `skip`/`limit` window as pagination. -/
def Post.search (tmatch : String → Post → Bool) (score : Post → Nat)
    (db : List Post) (q : String) (page limit : Nat) : List Post :=
  let skip := (page - 1) * limit
  ((sortDescBy score (db.filter (fun p => tmatch q p && p.published))).drop
      skip).take limit

/-! ### Post controllers (controllers/postController.js) -/

/-- Response of an ownership-scoped mutation: the 404 branch or the success
branch (with the entity for update, without for delete). -/
inductive CrudOutcome (α : Type)
  | failure (status : Nat) (message : String)
  | success (message : String) (data : Option α)
deriving DecidableEq

/-- Envelope returned by `getPosts`: the search branch builds
`{posts, pagination: {page, limit, total: posts.length}}`; the other branch
returns `Post.paginate`'s envelope. -/
inductive GetPostsData
  | searched (posts : List Post) (page limit total : Nat)
  | paged (r : PaginateResult)
deriving DecidableEq

/-- `getPosts`: presence of a non-empty (truthy) `search` query parameter
selects search mode, else windowed pagination. -/
def getPosts (tmatch : String → Post → Bool) (score : Post → Nat)
    (db : List Post) (page limit : Nat) (searchQ : Option String) :
    GetPostsData :=
  match searchQ with
  | some q =>
    if q ≠ "" then
      let posts := Post.search tmatch score db q page limit
      .searched posts page limit posts.length
    else .paged (Post.paginate db page limit)
  | none => .paged (Post.paginate db page limit)

/-- The update-request body for a post.  `none` is an absent (or JS-falsy
`undefined`/`null`) field.  `image` distinguishes absent (`none`) from an
explicit `null` (`some none`) because the controller tests `!== undefined`
for it. -/
structure PostPatch where
  title : Option String
  body : Option String
  category : Option String
  tags : Option (List String)
  image : Option (Option String)
  published : Option Bool
deriving DecidableEq

/-- The field assignments of `updatePost`: `title`/`body`/`category` are
guarded by JS truthiness (an empty string is falsy and skipped), `tags` by
truthiness of an array (always truthy when present), `image` and `published`
by `!== undefined`. -/
def applyPostPatch (p : Post) (patch : PostPatch) : Post :=
  let p1 := match patch.title with
            | some t => if t != "" then { p with title := t } else p
            | none => p
  let p2 := match patch.body with
            | some b => if b != "" then { p1 with body := b } else p1
            | none => p1
  let p3 := match patch.category with
            | some c => if c != "" then { p2 with category := c } else p2
            | none => p2
  let p4 := match patch.tags with
            | some ts => { p3 with tags := ts }
            | none => p3
  let p5 := match patch.image with
            | some img => { p4 with image := img }
            | none => p4
  match patch.published with
  | some pb => { p5 with published := pb }
  | none => p5

/-- `updatePost`: single ownership-scoped lookup
`findOne({_id: id, author: userId})`; a miss (nonexistent or not owned) is
404, a hit applies the patch and saves the document back. -/
def updatePost (db : List Post) (reqId userId : Nat) (patch : PostPatch) :
    CrudOutcome Post × List Post :=
  match db.find? (fun p => p.id == reqId && p.author == userId) with
  | none => (.failure 404 "Post not found or unauthorized", db)
  | some p =>
    let p2 := applyPostPatch p patch
    (.success "Post updated successfully" (some p2),
     db.map (fun q => if q.id == p.id then p2 else q))

/-- `deletePost`: `findOneAndDelete({_id: id, author: userId})`. -/
def deletePost (db : List Post) (reqId userId : Nat) :
    CrudOutcome Post × List Post :=
  match db.find? (fun p => p.id == reqId && p.author == userId) with
  | none => (.failure 404 "Post not found or unauthorized", db)
  | some _ =>
    (.success "Post deleted successfully" none,
     db.eraseP (fun p => p.id == reqId && p.author == userId))

/-! ### Task model and controllers (MERN_STACK_GUIDE.md) -/

structure Task where
  id : Nat
  text : String
  completed : Bool
  priority : String
  dueDate : Option Nat
  tags : List String
  /-- Owning user id (`user` reference). -/
  user : Nat
  createdAt : Nat
deriving DecidableEq

/-- Update-request body for a task; every field is guarded by
`!== undefined`, so `none` is exactly an absent field.  `dueDate`
distinguishes an explicit `null` (`some none`). -/
structure TaskPatch where
  text : Option String
  completed : Option Bool
  priority : Option String
  dueDate : Option (Option Nat)
  tags : Option (List String)
deriving DecidableEq

/-- The field assignments of `updateTask` (all `!== undefined`). -/
def applyTaskPatch (t : Task) (patch : TaskPatch) : Task :=
  let t1 := match patch.text with
            | some v => { t with text := v }
            | none => t
  let t2 := match patch.completed with
            | some v => { t1 with completed := v }
            | none => t1
  let t3 := match patch.priority with
            | some v => { t2 with priority := v }
            | none => t2
  let t4 := match patch.dueDate with
            | some v => { t3 with dueDate := v }
            | none => t3
  match patch.tags with
  | some v => { t4 with tags := v }
  | none => t4

/-- `updateTask`: `findOne({_id: id, user: userId})`, patch, save. -/
def updateTask (db : List Task) (reqId userId : Nat) (patch : TaskPatch) :
    CrudOutcome Task × List Task :=
  match db.find? (fun t => t.id == reqId && t.user == userId) with
  | none => (.failure 404 "Task not found", db)
  | some t =>
    let t2 := applyTaskPatch t patch
    (.success "Task updated successfully" (some t2),
     db.map (fun q => if q.id == t.id then t2 else q))

/-- `deleteTask`: `findOneAndDelete({_id: id, user: userId})`. -/
def deleteTask (db : List Task) (reqId userId : Nat) :
    CrudOutcome Task × List Task :=
  match db.find? (fun t => t.id == reqId && t.user == userId) with
  | none => (.failure 404 "Task not found", db)
  | some _ =>
    (.success "Task deleted successfully" none,
     db.eraseP (fun t => t.id == reqId && t.user == userId))

/-! ### Helper lemmas: JS replace-first -/

theorem listLeads_append (pat t : List Char) :
    listLeads pat (pat ++ t) = true := by
  induction pat with
  | nil => rfl
  | cons p ps ih => simp [listLeads, ih]

theorem deleteFirstOcc_append (pat t : List Char) :
    deleteFirstOcc pat (pat ++ t) = t := by
  cases pat with
  | nil =>
    cases t with
    | nil => rfl
    | cons c cs => simp [deleteFirstOcc, listLeads]
  | cons p ps =>
    have hl : listLeads (p :: ps) (p :: (ps ++ t)) = true := by
      have := listLeads_append (p :: ps) t
      simpa using this
    show deleteFirstOcc (p :: ps) (p :: (ps ++ t)) = t
    rw [deleteFirstOcc, if_pos hl]
    have : (p :: (ps ++ t)).drop (p :: ps).length = (ps ++ t).drop ps.length := by
      simp [List.length_cons]
    rw [this, List.drop_left]

theorem deleteFirstOcc_of_no_occ (pat : List Char) :
    ∀ s, hasOcc pat s = false → deleteFirstOcc pat s = s := by
  intro s
  induction s with
  | nil => intro _; rfl
  | cons c cs ih =>
    intro h
    rw [hasOcc, Bool.or_eq_false_iff] at h
    rw [deleteFirstOcc, if_neg (by simp [h.1]), ih h.2]

theorem bearerToken_prefixed (t : String) :
    bearerToken ("Bearer " ++ t) = t := by
  show String.mk (deleteFirstOcc ("Bearer " : String).data
    ("Bearer ".data ++ t.data)) = t
  rw [deleteFirstOcc_append]

theorem bearerToken_of_no_occ (t : String)
    (h : hasOcc ("Bearer " : String).data t.data = false) :
    bearerToken t = t := by
  show String.mk (deleteFirstOcc ("Bearer " : String).data t.data) = t
  rw [deleteFirstOcc_of_no_occ _ _ h]

/-! ### Claim theorems: authentication -/

/-- C9: the optional authentication variant never rejects: for every
environment and every Authorization header (absent, malformed/expired token,
or unknown user) `optionalAuth` proceeds to the next handler, with the
resolved user attached when the whole chain succeeds and silently
unauthenticated otherwise. -/
theorem C9_optionalAuth_never_rejects (env : AuthEnv) (h : Option String) :
    ∃ attached, optionalAuth env h = .proceed attached := by
  match h with
  | none => exact ⟨none, rfl⟩
  | some s =>
    by_cases hs : s = ""
    · exact ⟨none, by simp [optionalAuth, hs]⟩
    · cases hv : env.verifyTok (bearerToken s) with
      | error e => exact ⟨none, by simp [optionalAuth, hs, hv]⟩
      | ok d =>
        cases hu : env.findUser d.id with
        | none => exact ⟨none, by simp [optionalAuth, hs, hv, hu]⟩
        | some u => exact ⟨some (u, u.id), by simp [optionalAuth, hs, hv, hu]⟩

/-- C10 counterexample: with a token that itself contains the substring
`"Bearer "`, a bare-token header and a `"Bearer "`-prefixed header produce
different authentication outcomes, because `replace` deletes the first
occurrence wherever it is.  This refutes the claim as stated (quantified
over every token). -/
theorem C10_counterexample_bare_ne_prefixed :
    auth
      { verifyTok := fun s =>
          if s = "xBearer y" then
            .ok { id := 1, email := "a@x.com", name := "Ann", role := "user" }
          else .error .malformed,
        findUser := fun _ =>
          some { id := 1, name := "Ann", email := "a@x.com",
                 password := "h", role := "user", avatar := none } }
      (some "xBearer y") ≠
    auth
      { verifyTok := fun s =>
          if s = "xBearer y" then
            .ok { id := 1, email := "a@x.com", name := "Ann", role := "user" }
          else .error .malformed,
        findUser := fun _ =>
          some { id := 1, name := "Ann", email := "a@x.com",
                 password := "h", role := "user", avatar := none } }
      (some ("Bearer " ++ "xBearer y")) := by
  decide

/-- C10 amended: token extraction deletes only the first occurrence of
`"Bearer "`; hence for every nonempty token `t` that does not itself contain
the substring `"Bearer "`, a request whose header is the bare token `t`
produces exactly the same authentication outcome (for both the mandatory and
the optional middleware) as one whose header is `"Bearer "` followed by
`t`. -/
theorem C10_bare_token_equiv (env : AuthEnv) (t : String) (hne : t ≠ "")
    (hocc : hasOcc ("Bearer " : String).data t.data = false) :
    auth env (some t) = auth env (some ("Bearer " ++ t)) ∧
    optionalAuth env (some t) = optionalAuth env (some ("Bearer " ++ t)) := by
  have hb : bearerToken t = t := bearerToken_of_no_occ t hocc
  have hb2 : bearerToken ("Bearer " ++ t) = t := bearerToken_prefixed t
  have hne2 : ("Bearer " ++ t) ≠ "" := by
    intro hcon
    have hd : ("Bearer " ++ t).data = [] := by rw [hcon]
    simp [String.data_append] at hd
  constructor
  · simp only [auth, if_neg hne, if_neg hne2, hb, hb2]
  · simp only [optionalAuth, if_neg hne, if_neg hne2, hb, hb2]

/-- C10 amended, witness: a concrete ordinary token behaves identically bare
and `"Bearer "`-prefixed. -/
theorem C10_bare_token_equiv_witness :
    auth { verifyTok := fun _ => .error .malformed, findUser := fun _ => none }
        (some "tok123") =
      auth { verifyTok := fun _ => .error .malformed, findUser := fun _ => none }
        (some ("Bearer " ++ "tok123")) ∧
    optionalAuth
        { verifyTok := fun _ => .error .malformed, findUser := fun _ => none }
        (some "tok123") =
      optionalAuth
        { verifyTok := fun _ => .error .malformed, findUser := fun _ => none }
        (some ("Bearer " ++ "tok123")) :=
  C10_bare_token_equiv _ "tok123" (by decide) (by decide)

/-- C2: on a mandatory-auth path with a token present, the `auth` middleware
rejects with 401 and the specific token-error message when verification fails
(expired vs. malformed, and every verification failure is a 401); rejects
with 401 (user not found) when the token verifies but the claimed user id no
longer resolves; and otherwise proceeds with the resolved user and its id
attached to the request context. -/
theorem C2_auth_request_outcomes (env : AuthEnv) (h : String)
    (hne : h ≠ "") (htok : bearerToken h ≠ "") :
    (env.verifyTok (bearerToken h) = .error .expired →
      auth env (some h) = .reject 401 "Token expired, please login again") ∧
    (env.verifyTok (bearerToken h) = .error .malformed →
      auth env (some h) = .reject 401 "Invalid token") ∧
    (∀ e, env.verifyTok (bearerToken h) = .error e →
      ∃ msg, auth env (some h) = .reject 401 msg) ∧
    (∀ d, env.verifyTok (bearerToken h) = .ok d → env.findUser d.id = none →
      auth env (some h) = .reject 401 "User not found, token invalid") ∧
    (∀ d u, env.verifyTok (bearerToken h) = .ok d →
      env.findUser d.id = some u →
      auth env (some h) = .proceed (some (u, u.id))) := by
  refine ⟨fun hv => ?_, fun hv => ?_, fun e hv => ?_, fun d hv hu => ?_,
    fun d u hv hu => ?_⟩
  · simp [auth, if_neg hne, if_neg htok, hv]
  · simp [auth, if_neg hne, if_neg htok, hv]
  · cases e with
    | expired =>
      exact ⟨"Token expired, please login again",
        by simp [auth, if_neg hne, if_neg htok, hv]⟩
    | malformed =>
      exact ⟨"Invalid token", by simp [auth, if_neg hne, if_neg htok, hv]⟩
  · simp [auth, if_neg hne, if_neg htok, hv, hu]
  · simp [auth, if_neg hne, if_neg htok, hv, hu]

/-- C2 witness: a concrete environment in which a verified token whose user
exists proceeds with that user attached. -/
theorem C2_auth_request_outcomes_witness :
    auth
      { verifyTok := fun s =>
          if s = "tok1" then
            .ok { id := 5, email := "b@x.com", name := "Bob", role := "user" }
          else .error .malformed,
        findUser := fun i =>
          if i = 5 then
            some { id := 5, name := "Bob", email := "b@x.com",
                   password := "h", role := "user", avatar := none }
          else none }
      (some "Bearer tok1") =
    .proceed (some ({ id := 5, name := "Bob", email := "b@x.com",
                      password := "h", role := "user", avatar := none }, 5)) :=
  (C2_auth_request_outcomes _ "Bearer tok1" (by decide) (by decide)).2.2.2.2
    { id := 5, email := "b@x.com", name := "Bob", role := "user" }
    { id := 5, name := "Bob", email := "b@x.com",
      password := "h", role := "user", avatar := none }
    rfl rfl

/-- C7: verifying a token immediately after issuing it succeeds with claims
matching the user's `{id, email, name, role}`; once the configured expiry has
elapsed, verification of the same token fails with the expired error. -/
theorem C7_issue_then_verify (u : User) (secret : String) (expire now : Nat)
    (hpos : 0 < expire) :
    jwtVerify (u.generateAuthToken secret expire now) secret now =
      .ok { id := u.id, email := u.email, name := u.name, role := u.role } ∧
    ∀ later, now + expire ≤ later →
      jwtVerify (u.generateAuthToken secret expire now) secret later =
        .error .expired := by
  constructor
  · have hlt : ¬(now + expire ≤ now) := by omega
    simp [jwtVerify, User.generateAuthToken, jwtSign, hlt]
  · intro later hl
    simp [jwtVerify, User.generateAuthToken, jwtSign, hl]

/-- C7 witness: a concrete user's token verifies right away with the matching
claims and fails with the expired error once the default 7-day expiry has
elapsed. -/
theorem C7_issue_then_verify_witness :
    jwtVerify
        (User.generateAuthToken
          { id := 9, name := "Cy", email := "c@x.com", password := "h",
            role := "admin", avatar := none } "s3cret" JWT_EXPIRE_DEFAULT 1000)
        "s3cret" 1000 =
      .ok { id := 9, email := "c@x.com", name := "Cy", role := "admin" } ∧
    jwtVerify
        (User.generateAuthToken
          { id := 9, name := "Cy", email := "c@x.com", password := "h",
            role := "admin", avatar := none } "s3cret" JWT_EXPIRE_DEFAULT 1000)
        "s3cret" (1000 + JWT_EXPIRE_DEFAULT) =
      .error .expired := by
  have h := C7_issue_then_verify
    { id := 9, name := "Cy", email := "c@x.com", password := "h",
      role := "admin", avatar := none } "s3cret" JWT_EXPIRE_DEFAULT 1000
    (by decide)
  exact ⟨h.1, h.2 (1000 + JWT_EXPIRE_DEFAULT) (by omega)⟩

/-- C6: the outward-facing serialization (`toJSON`) of a User never contains
a `password` key, and a default read (`findById` under the schema's
`select: false`) never returns a document with a `password` key. -/
theorem C6_password_write_only (u : User) (db : List User) (i : Nat)
    (doc : List (String × String)) :
    (∀ kv ∈ User.toJSON u, kv.1 ≠ "password") ∧
    (User.findByIdDefault db i = some doc → ∀ kv ∈ doc, kv.1 ≠ "password") := by
  constructor
  · intro kv hkv
    have h1 : kv ∈ deleteKey "password" (User.toObject u) :=
      (List.mem_filter.mp hkv).1
    have h2 := (List.mem_filter.mp h1).2
    simpa using h2
  · intro hdoc kv hkv
    rcases Option.map_eq_some'.mp hdoc with ⟨u', _, hproj⟩
    subst hproj
    have h2 := (List.mem_filter.mp hkv).2
    simp [userSelectFalse] at h2
    exact h2

/-- C6 witness: a concrete user's `toJSON` output and default read both
exclude the password. -/
theorem C6_password_write_only_witness :
    (∀ kv ∈ User.toJSON
        { id := 3, name := "Di", email := "d@x.com", password := "hash",
          role := "user", avatar := none }, kv.1 ≠ "password") ∧
    (∀ kv ∈ [("_id", "3"), ("name", "Di"), ("email", "d@x.com"),
        ("role", "user"), ("avatar", "null"), ("__v", "0")],
      kv.1 ≠ "password") := by
  have h := C6_password_write_only
    { id := 3, name := "Di", email := "d@x.com", password := "hash",
      role := "user", avatar := none }
    [{ id := 3, name := "Di", email := "d@x.com", password := "hash",
       role := "user", avatar := none }] 3
    [("_id", "3"), ("name", "Di"), ("email", "d@x.com"),
     ("role", "user"), ("avatar", "null"), ("__v", "0")]
  exact ⟨h.1, h.2 (by decide)⟩

/-! ### Helper lemmas: stable descending sort -/

theorem mem_insertDescBy {α : Type} (key : α → Nat) (p a : α) (l : List α) :
    a ∈ insertDescBy key p l ↔ a = p ∨ a ∈ l := by
  induction l with
  | nil => simp [insertDescBy]
  | cons q qs ih =>
    rw [insertDescBy]
    by_cases hq : key q ≤ key p
    · simp [if_pos hq]
    · simp [if_neg hq, ih]
      tauto

theorem length_insertDescBy {α : Type} (key : α → Nat) (p : α) (l : List α) :
    (insertDescBy key p l).length = l.length + 1 := by
  induction l with
  | nil => rfl
  | cons q qs ih =>
    rw [insertDescBy]
    by_cases hq : key q ≤ key p
    · simp [if_pos hq]
    · simp [if_neg hq, ih]

theorem mem_sortDescBy {α : Type} (key : α → Nat) (a : α) (l : List α) :
    a ∈ sortDescBy key l ↔ a ∈ l := by
  induction l with
  | nil => simp [sortDescBy]
  | cons q qs ih => simp [sortDescBy, mem_insertDescBy, ih]

theorem length_sortDescBy {α : Type} (key : α → Nat) (l : List α) :
    (sortDescBy key l).length = l.length := by
  induction l with
  | nil => rfl
  | cons q qs ih => simp [sortDescBy, length_insertDescBy, ih]

theorem pairwise_insertDescBy {α : Type} (key : α → Nat) (p : α) (l : List α)
    (h : l.Pairwise (fun a b => key b ≤ key a)) :
    (insertDescBy key p l).Pairwise (fun a b => key b ≤ key a) := by
  induction l with
  | nil => simp [insertDescBy]
  | cons q qs ih =>
    rw [insertDescBy]
    rcases List.pairwise_cons.mp h with ⟨hq, hqs⟩
    by_cases hk : key q ≤ key p
    · rw [if_pos hk]
      refine List.pairwise_cons.mpr ⟨?_, h⟩
      intro b hb
      rcases List.mem_cons.mp hb with hb | hb
      · exact hb ▸ hk
      · exact le_trans (hq b hb) hk
    · rw [if_neg hk]
      refine List.pairwise_cons.mpr ⟨?_, ih hqs⟩
      intro b hb
      rcases (mem_insertDescBy key p b qs).mp hb with hb | hb
      · exact hb ▸ le_of_not_le hk
      · exact hq b hb

theorem pairwise_sortDescBy {α : Type} (key : α → Nat) (l : List α) :
    (sortDescBy key l).Pairwise (fun a b => key b ≤ key a) := by
  induction l with
  | nil => simp [sortDescBy]
  | cons q qs ih => exact pairwise_insertDescBy key q _ ih

theorem pairwise_window {α : Type} (key : α → Nat) (l : List α) (s k : Nat) :
    (((sortDescBy key l).drop s).take k).Pairwise
      (fun a b => key b ≤ key a) := by
  have hsub : (((sortDescBy key l).drop s).take k).Sublist (sortDescBy key l) :=
    (List.take_sublist _ _).trans (List.drop_sublist _ _)
  exact List.Pairwise.sublist hsub (pairwise_sortDescBy key l)

theorem mem_of_mem_window {α : Type} (p : α) (l : List α) (s k : Nat)
    (h : p ∈ (l.drop s).take k) : p ∈ l :=
  List.mem_of_mem_drop (List.mem_of_mem_take h)

/-! ### Helper lemmas: `Math.ceil(total / limit)` -/

theorem le_ceilDivNat_mul (a b : Nat) (hb : 1 ≤ b) :
    a ≤ ceilDivNat a b * b := by
  unfold ceilDivNat
  have h1 := Nat.div_add_mod (a + b - 1) b
  have h2 : (a + b - 1) % b < b := Nat.mod_lt _ hb
  have h3 : b * ((a + b - 1) / b) = ((a + b - 1) / b) * b := Nat.mul_comm _ _
  omega

theorem ceilDivNat_le (a b n : Nat) (hb : 1 ≤ b) (h : a ≤ n * b) :
    ceilDivNat a b ≤ n := by
  unfold ceilDivNat
  have hmul : (n + 1) * b = n * b + b := by ring
  have hlt : a + b - 1 < (n + 1) * b := by omega
  have := (Nat.div_lt_iff_lt_mul hb).mpr hlt
  omega

/-- Faithfulness of the embedding of `Math.ceil(total / limit)`: for a
positive limit, the natural-number formula equals the ceiling of the exact
rational division. -/
theorem ceilDivNat_eq_ceil (a b : Nat) (hb : 1 ≤ b) :
    (ceilDivNat a b : ℤ) = ⌈(a : ℚ) / (b : ℚ)⌉ := by
  have hb0 : (0 : ℚ) < (b : ℚ) := by exact_mod_cast hb
  have hnn : 0 ≤ ⌈(a : ℚ) / (b : ℚ)⌉ := Int.ceil_nonneg (by positivity)
  refine le_antisymm ?_ ?_
  · have hceil : (a : ℚ) / (b : ℚ) ≤ (⌈(a : ℚ) / (b : ℚ)⌉ : ℚ) :=
      Int.le_ceil _
    have hq : (a : ℚ) ≤ (⌈(a : ℚ) / (b : ℚ)⌉ : ℚ) * (b : ℚ) :=
      (div_le_iff₀ hb0).mp hceil
    have h2 : ((⌈(a : ℚ) / (b : ℚ)⌉.toNat : ℕ) : ℚ) =
        (⌈(a : ℚ) / (b : ℚ)⌉ : ℚ) := by
      exact_mod_cast congrArg (fun z : ℤ => (z : ℚ)) (Int.toNat_of_nonneg hnn)
    have hnat : a ≤ ⌈(a : ℚ) / (b : ℚ)⌉.toNat * b := by
      rw [← h2] at hq
      exact_mod_cast hq
    have hle := ceilDivNat_le a b _ hb hnat
    omega
  · rw [Int.ceil_le]
    have h1 : a ≤ ceilDivNat a b * b := le_ceilDivNat_mul a b hb
    rw [div_le_iff₀ hb0]
    push_cast
    exact_mod_cast h1

/-! ### Claim theorems: pagination and search -/

/-- C3: windowed pagination returns at most `limit` published posts ordered
newest-first, with a descriptor satisfying `page`/`limit` echo,
`total` = count of published posts, `totalPages = ceil(total/limit)` and
`hasMore = (skip + returned < total)` with `skip = (page-1)*limit`; a page
beyond the last yields an empty list with `hasMore = false`, not an
error. -/
theorem C3_paginate_window (db : List Post) (page limit : Nat)
    (hp : 1 ≤ page) (hl : 1 ≤ limit) :
    (Post.paginate db page limit).posts.length ≤ limit ∧
    (∀ p ∈ (Post.paginate db page limit).posts, p.published = true) ∧
    (Post.paginate db page limit).posts.Pairwise
      (fun a b => b.createdAt ≤ a.createdAt) ∧
    (Post.paginate db page limit).pagination.page = page ∧
    (Post.paginate db page limit).pagination.limit = limit ∧
    (Post.paginate db page limit).pagination.total =
      (db.filter (·.published)).length ∧
    ((Post.paginate db page limit).pagination.pages : ℤ) =
      ⌈((db.filter (·.published)).length : ℚ) / (limit : ℚ)⌉ ∧
    ((Post.paginate db page limit).pagination.hasMore = true ↔
      (page - 1) * limit + (Post.paginate db page limit).posts.length <
        (db.filter (·.published)).length) ∧
    ((db.filter (·.published)).length ≤ (page - 1) * limit →
      (Post.paginate db page limit).posts = [] ∧
      (Post.paginate db page limit).pagination.hasMore = false) := by
  refine ⟨?_, ?_, ?_, rfl, rfl, rfl, ?_, ?_, ?_⟩
  · simp only [Post.paginate, List.length_take]
    exact inf_le_left
  · intro p hp'
    simp only [Post.paginate] at hp'
    have h1 : p ∈ sortByCreatedDesc (db.filter (·.published)) :=
      mem_of_mem_window p _ _ _ hp'
    have h2 : p ∈ db.filter (·.published) :=
      (mem_sortDescBy _ p _).mp h1
    simpa using (List.mem_filter.mp h2).2
  · exact pairwise_window (fun p : Post => p.createdAt)
      (db.filter (·.published)) ((page - 1) * limit) limit
  · exact ceilDivNat_eq_ceil _ limit hl
  · simp [Post.paginate, countDocuments]
  · intro hbeyond
    have hlen : (sortByCreatedDesc (db.filter (·.published))).length ≤
        (page - 1) * limit := by
      rw [sortByCreatedDesc, length_sortDescBy]
      exact hbeyond
    have hnil : (sortByCreatedDesc (db.filter (·.published))).drop
        ((page - 1) * limit) = [] := List.drop_eq_nil_of_le hlen
    constructor
    · simp [Post.paginate, hnil]
    · simp [Post.paginate, hnil, countDocuments]
      omega

/-- Sample collection used to instantiate the listing/search theorems: two
published posts (titled "react", views 5 and 9, distinct creation times) and
one unpublished draft. -/
def samplePosts : List Post :=
  [{ id := 1, title := "react", body := "hooks and state", author := 7,
     category := "technology", tags := [], views := 5, published := true,
     image := none, createdAt := 100 },
   { id := 2, title := "react", body := "context api", author := 7,
     category := "technology", tags := [], views := 9, published := true,
     image := none, createdAt := 200 },
   { id := 3, title := "hidden", body := "unpublished draft", author := 7,
     category := "other", tags := [], views := 0, published := false,
     image := none, createdAt := 300 }]

/-- A concrete instantiation of the `$text` match predicate: exact title
match. -/
def sampleMatch (q : String) (p : Post) : Bool := p.title == q

/-- A concrete instantiation of the relevance score: the view count. -/
def sampleScore (p : Post) : Nat := p.views

/-- C3 witness: with three published posts, `limit = 10` and `page = 4`
(beyond the last page) the result list is empty and `hasMore` is false. -/
theorem C3_paginate_window_witness :
    (Post.paginate samplePosts 4 10).posts = [] ∧
    (Post.paginate samplePosts 4 10).pagination.hasMore = false :=
  (C3_paginate_window samplePosts 4 10 (by decide)
    (by decide)).2.2.2.2.2.2.2.2 (by decide)

/-- C4 counterexample: with a non-empty search query, the result *list*
itself depends on the `page` and `limit` parameters supplied alongside the
query — page 1 and page 2 of a limit-1 search return different post lists,
and limit 1 and limit 2 return lists of different sizes — and the listing
call returns exactly those differing lists in its search envelope.  So no
single fixed-size result list is returned regardless of `page`/`limit`: the
claim as stated is false. -/
theorem C4_counterexample_result_list_depends_on_page :
    Post.search sampleMatch sampleScore samplePosts "react" 1 1 ≠
      Post.search sampleMatch sampleScore samplePosts "react" 2 1 ∧
    Post.search sampleMatch sampleScore samplePosts "react" 1 1 ≠
      Post.search sampleMatch sampleScore samplePosts "react" 1 2 ∧
    getPosts sampleMatch sampleScore samplePosts 1 1 (some "react") =
      .searched (Post.search sampleMatch sampleScore samplePosts "react" 1 1)
        1 1 1 ∧
    getPosts sampleMatch sampleScore samplePosts 2 1 (some "react") =
      .searched (Post.search sampleMatch sampleScore samplePosts "react" 2 1)
        2 1 1 := by
  decide

/-- C4 amended: search mode does accept `page`/`limit` windowing: the call
with a given `page` returns the `skip = (page-1)*limit` window (of size at
most `limit`) of the single ranked match list, exactly as pagination mode
windows its results. -/
theorem C4_search_accepts_windowing (tmatch : String → Post → Bool)
    (score : Post → Nat) (db : List Post) (q : String) (page limit : Nat)
    (hp : 1 ≤ page) :
    Post.search tmatch score db q page limit =
      (Post.search tmatch score db q 1 (page * limit)).drop
        ((page - 1) * limit) ∧
    (Post.search tmatch score db q page limit).length ≤ limit := by
  obtain ⟨k, rfl⟩ : ∃ k, page = k + 1 := ⟨page - 1, by omega⟩
  constructor
  · have harith : (k + 1) * limit - k * limit = limit := by
      have h : (k + 1) * limit = k * limit + limit := by ring
      omega
    simp only [Post.search, Nat.add_sub_cancel, Nat.sub_self, Nat.zero_mul,
      List.drop_zero]
    rw [List.drop_take, harith]
  · simp only [Post.search, List.length_take]
    exact inf_le_left

/-- C4 amended, witness: page 2 of a limit-1 search equals the second window
of the full ranked list. -/
theorem C4_search_accepts_windowing_witness :
    Post.search sampleMatch sampleScore samplePosts "react" 2 1 =
      (Post.search sampleMatch sampleScore samplePosts "react" 1 (2 * 1)).drop
        ((2 - 1) * 1) ∧
    (Post.search sampleMatch sampleScore samplePosts "react" 2 1).length ≤ 1 :=
  C4_search_accepts_windowing sampleMatch sampleScore samplePosts "react" 2 1
    (by decide)

/-- C5: every post returned by windowed pagination is published, and every
post returned by search mode is published and satisfies the text-match
predicate (its title+body relate to the query term) — quantified over every
instantiation of the `$text` operator and relevance score. -/
theorem C5_public_listing_published
    (tmatch : String → Post → Bool) (score : Post → Nat)
    (db : List Post) (q : String) (page limit : Nat) :
    (∀ p ∈ Post.search tmatch score db q page limit,
      p.published = true ∧ tmatch q p = true) ∧
    (∀ p ∈ (Post.paginate db page limit).posts, p.published = true) := by
  constructor
  · intro p hp
    simp only [Post.search] at hp
    have h1 : p ∈ sortDescBy score
        (db.filter (fun p => tmatch q p && p.published)) :=
      mem_of_mem_window p _ _ _ hp
    have h2 : p ∈ db.filter (fun p => tmatch q p && p.published) :=
      (mem_sortDescBy _ p _).mp h1
    have h3 := (List.mem_filter.mp h2).2
    simp only [Bool.and_eq_true] at h3
    exact ⟨h3.2, h3.1⟩
  · intro p hp
    simp only [Post.paginate] at hp
    have h1 : p ∈ sortByCreatedDesc (db.filter (·.published)) :=
      mem_of_mem_window p _ _ _ hp
    have h2 : p ∈ db.filter (·.published) :=
      (mem_sortDescBy _ p _).mp h1
    simpa using (List.mem_filter.mp h2).2

/-- C5 witness: the top search hit on the sample collection is published and
matches the query. -/
theorem C5_public_listing_published_witness :
    ({ id := 2, title := "react", body := "context api", author := 7,
       category := "technology", tags := [], views := 9, published := true,
       image := none, createdAt := 200 } : Post).published = true ∧
    sampleMatch "react"
      { id := 2, title := "react", body := "context api", author := 7,
        category := "technology", tags := [], views := 9, published := true,
        image := none, createdAt := 200 } = true :=
  (C5_public_listing_published sampleMatch sampleScore samplePosts "react"
      1 10).1
    { id := 2, title := "react", body := "context api", author := 7,
      category := "technology", tags := [], views := 9, published := true,
      image := none, createdAt := 200 }
    (by decide)

/-! ### Helper lemmas: ownership-scoped lookup -/

theorem find?_post_owner_none (db : List Post) (i uid : Nat)
    (h : ∀ q ∈ db, q.id = i → q.author ≠ uid) :
    db.find? (fun q => q.id == i && q.author == uid) = none := by
  rw [List.find?_eq_none]
  intro q hq
  simp only [Bool.and_eq_true, beq_iff_eq, not_and]
  exact h q hq

theorem find?_post_owner_some (db : List Post) (p : Post) (i uid : Nat)
    (hmem : p ∈ db) (hid : p.id = i) (hau : p.author = uid)
    (huniq : ∀ q ∈ db, q.id = i → q = p) :
    db.find? (fun q => q.id == i && q.author == uid) = some p := by
  rcases hsome : db.find? (fun q => q.id == i && q.author == uid) with _ | x
  · exfalso
    rw [List.find?_eq_none] at hsome
    exact hsome p hmem (by simp [hid, hau])
  · have hx := List.find?_some hsome
    have hxmem := List.mem_of_find?_eq_some hsome
    simp only [Bool.and_eq_true, beq_iff_eq] at hx
    rw [hsome, huniq x hxmem hx.1]

theorem find?_task_owner_none (db : List Task) (i uid : Nat)
    (h : ∀ q ∈ db, q.id = i → q.user ≠ uid) :
    db.find? (fun q => q.id == i && q.user == uid) = none := by
  rw [List.find?_eq_none]
  intro q hq
  simp only [Bool.and_eq_true, beq_iff_eq, not_and]
  exact h q hq

theorem find?_task_owner_some (db : List Task) (t : Task) (i uid : Nat)
    (hmem : t ∈ db) (hid : t.id = i) (hau : t.user = uid)
    (huniq : ∀ q ∈ db, q.id = i → q = t) :
    db.find? (fun q => q.id == i && q.user == uid) = some t := by
  rcases hsome : db.find? (fun q => q.id == i && q.user == uid) with _ | x
  · exfalso
    rw [List.find?_eq_none] at hsome
    exact hsome t hmem (by simp [hid, hau])
  · have hx := List.find?_some hsome
    have hxmem := List.mem_of_find?_eq_some hsome
    simp only [Bool.and_eq_true, beq_iff_eq] at hx
    rw [hsome, huniq x hxmem hx.1]

/-! ### Claim theorems: ownership-scoped CRUD -/

/-- C1: a Task or Post update/delete whose requesting owner id does not match
the resource's true owner returns exactly the same (404, same-message)
response as the same operation on a nonexistent id, and leaves the stored
collection unchanged in both cases. -/
theorem C1_owner_mismatch_like_missing :
    (∀ (db : List Post) (p : Post) (i uid nid : Nat) (patch : PostPatch),
      p ∈ db → p.id = i → p.author ≠ uid →
      (∀ q ∈ db, q.id = i → q = p) →
      (∀ q ∈ db, q.id ≠ nid) →
      updatePost db i uid patch =
        (.failure 404 "Post not found or unauthorized", db) ∧
      updatePost db nid uid patch =
        (.failure 404 "Post not found or unauthorized", db) ∧
      deletePost db i uid =
        (.failure 404 "Post not found or unauthorized", db) ∧
      deletePost db nid uid =
        (.failure 404 "Post not found or unauthorized", db)) ∧
    (∀ (db : List Task) (t : Task) (i uid nid : Nat) (patch : TaskPatch),
      t ∈ db → t.id = i → t.user ≠ uid →
      (∀ q ∈ db, q.id = i → q = t) →
      (∀ q ∈ db, q.id ≠ nid) →
      updateTask db i uid patch = (.failure 404 "Task not found", db) ∧
      updateTask db nid uid patch = (.failure 404 "Task not found", db) ∧
      deleteTask db i uid = (.failure 404 "Task not found", db) ∧
      deleteTask db nid uid = (.failure 404 "Task not found", db)) := by
  constructor
  · intro db p i uid nid patch hmem hid hauth huniq hfresh
    have hf1 : db.find? (fun q => q.id == i && q.author == uid) = none := by
      refine find?_post_owner_none db i uid ?_
      intro q hq hqi
      have hqp := huniq q hq hqi
      rw [hqp]
      exact hauth
    have hf2 : db.find? (fun q => q.id == nid && q.author == uid) = none := by
      refine find?_post_owner_none db nid uid ?_
      intro q hq hqi
      exact absurd hqi (hfresh q hq)
    exact ⟨by simp [updatePost, hf1], by simp [updatePost, hf2],
      by simp [deletePost, hf1], by simp [deletePost, hf2]⟩
  · intro db t i uid nid patch hmem hid hauth huniq hfresh
    have hf1 : db.find? (fun q => q.id == i && q.user == uid) = none := by
      refine find?_task_owner_none db i uid ?_
      intro q hq hqi
      have hqp := huniq q hq hqi
      rw [hqp]
      exact hauth
    have hf2 : db.find? (fun q => q.id == nid && q.user == uid) = none := by
      refine find?_task_owner_none db nid uid ?_
      intro q hq hqi
      exact absurd hqi (hfresh q hq)
    exact ⟨by simp [updateTask, hf1], by simp [updateTask, hf2],
      by simp [deleteTask, hf1], by simp [deleteTask, hf2]⟩

/-- Sample single-task collection owned by user 7. -/
def sampleTasks : List Task :=
  [{ id := 1, text := "write spec", completed := false, priority := "medium",
     dueDate := none, tags := [], user := 7, createdAt := 10 }]

/-- An update body with no fields present. -/
def emptyPostPatch : PostPatch :=
  { title := none, body := none, category := none, tags := none,
    image := none, published := none }

/-- An update body with no fields present (task variant). -/
def emptyTaskPatch : TaskPatch :=
  { text := none, completed := none, priority := none, dueDate := none,
    tags := none }

/-- C1 witness: requests by non-owner 99 against existing id 1 and against
nonexistent id 50 return identical 404 responses and leave the collections
unchanged. -/
theorem C1_owner_mismatch_like_missing_witness :
    (updatePost samplePosts 1 99 emptyPostPatch =
        (.failure 404 "Post not found or unauthorized", samplePosts) ∧
      updatePost samplePosts 50 99 emptyPostPatch =
        (.failure 404 "Post not found or unauthorized", samplePosts) ∧
      deletePost samplePosts 1 99 =
        (.failure 404 "Post not found or unauthorized", samplePosts) ∧
      deletePost samplePosts 50 99 =
        (.failure 404 "Post not found or unauthorized", samplePosts)) ∧
    (updateTask sampleTasks 1 99 emptyTaskPatch =
        (.failure 404 "Task not found", sampleTasks) ∧
      updateTask sampleTasks 50 99 emptyTaskPatch =
        (.failure 404 "Task not found", sampleTasks) ∧
      deleteTask sampleTasks 1 99 = (.failure 404 "Task not found", sampleTasks) ∧
      deleteTask sampleTasks 50 99 =
        (.failure 404 "Task not found", sampleTasks)) :=
  ⟨C1_owner_mismatch_like_missing.1 samplePosts
      { id := 1, title := "react", body := "hooks and state", author := 7,
        category := "technology", tags := [], views := 5, published := true,
        image := none, createdAt := 100 } 1 99 50 emptyPostPatch
      (by decide) (by decide) (by decide) (by decide) (by decide),
   C1_owner_mismatch_like_missing.2 sampleTasks
      { id := 1, text := "write spec", completed := false,
        priority := "medium", dueDate := none, tags := [], user := 7,
        createdAt := 10 } 1 99 50 emptyTaskPatch
      (by decide) (by decide) (by decide) (by decide) (by decide)⟩

/-! ### Helper lemmas: patch application -/

/-- Closed form of `applyPostPatch`: each field's new value as a function of
its own patch entry alone. -/
theorem applyPostPatch_eq (p : Post) (patch : PostPatch) :
    applyPostPatch p patch =
      { p with
        title := match patch.title with
          | some t => if t != "" then t else p.title
          | none => p.title,
        body := match patch.body with
          | some b => if b != "" then b else p.body
          | none => p.body,
        category := match patch.category with
          | some c => if c != "" then c else p.category
          | none => p.category,
        tags := match patch.tags with
          | some v => v
          | none => p.tags,
        image := match patch.image with
          | some v => v
          | none => p.image,
        published := match patch.published with
          | some v => v
          | none => p.published } := by
  rcases patch with ⟨ot, ob, oc, otg, oi, op⟩
  cases ot <;> cases ob <;> cases oc <;> cases otg <;> cases oi <;> cases op <;>
    simp only [applyPostPatch] <;> split_ifs <;> rfl

/-- Closed form of `applyTaskPatch`: plain present-or-keep semantics. -/
theorem applyTaskPatch_eq (t : Task) (patch : TaskPatch) :
    applyTaskPatch t patch =
      { t with
        text := patch.text.getD t.text,
        completed := patch.completed.getD t.completed,
        priority := patch.priority.getD t.priority,
        dueDate := patch.dueDate.getD t.dueDate,
        tags := patch.tags.getD t.tags } := by
  rcases patch with ⟨a, b, c, d, e⟩
  cases a <;> cases b <;> cases c <;> cases d <;> cases e <;> rfl

/-- An update body naming only `title`, with the empty string as value. -/
def emptyTitlePatch : PostPatch :=
  { title := some "", body := none, category := none, tags := none,
    image := none, published := none }

/-- C8 counterexample: the owner updates post 1 with a patch that names the
`title` key with value `""`; the operation succeeds but the stored title
remains `"react"`, not the patch's value — `updatePost` guards
`title`/`body`/`category`/`tags` by JS truthiness, not by key presence, so
the claim that each field named in the patch takes the patch's value is
false. -/
theorem C8_counterexample_empty_string_skipped :
    emptyTitlePatch.title = some "" ∧
    (updatePost samplePosts 1 7 emptyTitlePatch).1 =
      .success "Post updated successfully"
        (some { id := 1, title := "react", body := "hooks and state",
                author := 7, category := "technology", tags := [], views := 5,
                published := true, image := none, createdAt := 100 }) ∧
    ("react" : String) ≠ "" := by
  refine ⟨rfl, ?_, by decide⟩
  decide

/-- C8 amended: for an existing owned resource, the update succeeds and
applies fields as the controllers actually guard them: for Posts,
`title`/`body`/`category` are applied exactly when present with a non-empty
value (a present-but-empty value is skipped and the prior value kept),
`tags`/`image`/`published` exactly when present; for Tasks every field is
applied exactly when present; in both cases every field not named in the
patch — and every other stored document — retains its prior value. -/
theorem C8_patch_applies_guarded_fields :
    (∀ (db : List Post) (p : Post) (i uid : Nat) (patch : PostPatch),
      p ∈ db → p.id = i → p.author = uid →
      (∀ q ∈ db, q.id = i → q = p) →
      (updatePost db i uid patch).1 =
        .success "Post updated successfully" (some (applyPostPatch p patch)) ∧
      (∀ q ∈ db, q.id ≠ i → q ∈ (updatePost db i uid patch).2)) ∧
    (∀ (p : Post) (patch : PostPatch),
      (patch.title = none ∨ patch.title = some "" →
        (applyPostPatch p patch).title = p.title) ∧
      (∀ s, patch.title = some s → s ≠ "" →
        (applyPostPatch p patch).title = s) ∧
      (patch.body = none ∨ patch.body = some "" →
        (applyPostPatch p patch).body = p.body) ∧
      (∀ s, patch.body = some s → s ≠ "" →
        (applyPostPatch p patch).body = s) ∧
      (patch.category = none ∨ patch.category = some "" →
        (applyPostPatch p patch).category = p.category) ∧
      (∀ s, patch.category = some s → s ≠ "" →
        (applyPostPatch p patch).category = s) ∧
      (patch.tags = none → (applyPostPatch p patch).tags = p.tags) ∧
      (∀ v, patch.tags = some v → (applyPostPatch p patch).tags = v) ∧
      (patch.image = none → (applyPostPatch p patch).image = p.image) ∧
      (∀ v, patch.image = some v → (applyPostPatch p patch).image = v) ∧
      (patch.published = none →
        (applyPostPatch p patch).published = p.published) ∧
      (∀ v, patch.published = some v →
        (applyPostPatch p patch).published = v) ∧
      (applyPostPatch p patch).id = p.id ∧
      (applyPostPatch p patch).author = p.author ∧
      (applyPostPatch p patch).views = p.views ∧
      (applyPostPatch p patch).createdAt = p.createdAt) ∧
    (∀ (db : List Task) (t : Task) (i uid : Nat) (patch : TaskPatch),
      t ∈ db → t.id = i → t.user = uid →
      (∀ q ∈ db, q.id = i → q = t) →
      (updateTask db i uid patch).1 =
        .success "Task updated successfully" (some (applyTaskPatch t patch)) ∧
      (∀ q ∈ db, q.id ≠ i → q ∈ (updateTask db i uid patch).2)) ∧
    (∀ (t : Task) (patch : TaskPatch),
      (applyTaskPatch t patch).text = patch.text.getD t.text ∧
      (applyTaskPatch t patch).completed = patch.completed.getD t.completed ∧
      (applyTaskPatch t patch).priority = patch.priority.getD t.priority ∧
      (applyTaskPatch t patch).dueDate = patch.dueDate.getD t.dueDate ∧
      (applyTaskPatch t patch).tags = patch.tags.getD t.tags ∧
      (applyTaskPatch t patch).id = t.id ∧
      (applyTaskPatch t patch).user = t.user ∧
      (applyTaskPatch t patch).createdAt = t.createdAt) := by
  refine ⟨?_, ?_, ?_, ?_⟩
  · intro db p i uid patch hmem hid hau huniq
    have hfind := find?_post_owner_some db p i uid hmem hid hau huniq
    constructor
    · simp [updatePost, hfind]
    · intro q hq hne
      simp only [updatePost, hfind]
      refine List.mem_map.mpr ⟨q, hq, ?_⟩
      rw [if_neg]
      simp only [beq_iff_eq, hid]
      exact hne
  · intro p patch
    rw [applyPostPatch_eq]
    refine ⟨?_, ?_, ?_, ?_, ?_, ?_, ?_, ?_, ?_, ?_, ?_, ?_, rfl, rfl, rfl, rfl⟩
    · rintro (h | h) <;> simp [h]
    · intro s hs hne
      simp [hs, hne]
    · rintro (h | h) <;> simp [h]
    · intro s hs hne
      simp [hs, hne]
    · rintro (h | h) <;> simp [h]
    · intro s hs hne
      simp [hs, hne]
    · intro h
      simp [h]
    · intro v hv
      simp [hv]
    · intro h
      simp [h]
    · intro v hv
      simp [hv]
    · intro h
      simp [h]
    · intro v hv
      simp [hv]
  · intro db t i uid patch hmem hid hau huniq
    have hfind := find?_task_owner_some db t i uid hmem hid hau huniq
    constructor
    · simp [updateTask, hfind]
    · intro q hq hne
      simp only [updateTask, hfind]
      refine List.mem_map.mpr ⟨q, hq, ?_⟩
      rw [if_neg]
      simp only [beq_iff_eq, hid]
      exact hne
  · intro t patch
    rw [applyTaskPatch_eq]
    exact ⟨rfl, rfl, rfl, rfl, rfl, rfl, rfl, rfl⟩

/-- C8 amended, witness: the owner's update with the empty-title patch
succeeds, returns exactly the patched document, and leaves other documents
in place. -/
theorem C8_patch_applies_guarded_fields_witness :
    (updatePost samplePosts 1 7 emptyTitlePatch).1 =
      .success "Post updated successfully"
        (some (applyPostPatch
          { id := 1, title := "react", body := "hooks and state", author := 7,
            category := "technology", tags := [], views := 5,
            published := true, image := none, createdAt := 100 }
          emptyTitlePatch)) ∧
    (∀ q ∈ samplePosts, q.id ≠ 1 →
      q ∈ (updatePost samplePosts 1 7 emptyTitlePatch).2) :=
  C8_patch_applies_guarded_fields.1 samplePosts
    { id := 1, title := "react", body := "hooks and state", author := 7,
      category := "technology", tags := [], views := 5, published := true,
      image := none, createdAt := 100 } 1 7 emptyTitlePatch
    (by decide) (by decide) (by decide) (by decide)

end App
